import Mathlib

/-!
Verification of the image-to-animation pipeline in
`src/01_branding/4knowledges/flor/createGIF.py` (and its near-duplicate
`soul/createGIF.py`): discovery, grouping by dimensions, ordering,
frame conversion, encoding parameters and output-path selection.

The Python script calls into PIL (Pillow); PIL operations are embedded at
contract level, per-pixel where the claims are per-pixel:
* an image is a mode, a size and a pixel function;
* `Image.paste(im, mask=m)` with an `L`-mode mask alpha-blends `im` over the
  background using the mask (mask 0 keeps the background, 255 takes `im`);
* `Image.paste(im)` without a mask first converts `im` to the background's
  mode (for `LA` sources this drops the alpha band and replicates the
  luminance channel) and then covers the background entirely;
* `convert("P", palette=ADAPTIVE)` (adaptive palette quantization) is
  modelled as colour-preserving: it changes the mode to `P` and makes every
  pixel opaque; the palette approximation itself belongs to the opaque
  imaging library, outside the pipeline's contract;
* `resize(wh, LANCZOS)` returns an image of exactly the requested size
  (resampled pixel contents are not inspected by any claim);
* `ImageOps.exif_transpose` is an arbitrary parameter (older Pillow versions
  may return `None`, which the script guards against).

Filesystem-dependent helpers (`get_image_size`, `st_ctime`, `Path.exists`)
are parametrised by explicit filesystem models.
-/

namespace CreateGIF

/-- Python `str.lower()`: lowercase every character.  (Defined at the
char-list level so that it reduces inside the kernel.) -/
def pyLower (s : String) : String := String.mk (s.data.map Char.toLower)

/-- Python `str.strip()`: drop whitespace from both ends. -/
def pyStrip (s : String) : String :=
  String.mk (((s.data.dropWhile Char.isWhitespace).reverse.dropWhile
    Char.isWhitespace).reverse)

/-- Python `str.isdigit()` (restricted to ASCII digits, which is all the
script ever feeds it): non-empty and every character a digit. -/
def pyIsDigit (s : String) : Bool := !s.data.isEmpty && s.data.all Char.isDigit

/-- Value of a digit string (used for Python `int(s)` after an
`isdigit` check has succeeded). -/
def digitsToNat (cs : List Char) : Nat :=
  cs.foldl (fun n c => n * 10 + (c.toNat - 48)) 0

/-- Python `int(s)` on a stripped string: optional sign followed by at least
one ASCII digit; anything else raises (is `none`). -/
def pyToInt (s : String) : Option Int :=
  match s.data with
  | [] => none
  | c :: rest =>
    if c = '-' then
      if !rest.isEmpty && rest.all Char.isDigit then
        some (-(digitsToNat rest : Int))
      else none
    else if c = '+' then
      if !rest.isEmpty && rest.all Char.isDigit then
        some ((digitsToNat rest : Int))
      else none
    else if (c :: rest).all Char.isDigit then
      some ((digitsToNat (c :: rest) : Int))
    else none

/-- PIL image modes occurring in the script, plus a catch-all for every
other mode string PIL may produce. -/
inductive Mode where
  | RGB | RGBA | LA | L | P | PA
  | other (name : String)
deriving DecidableEq

/-- One pixel.  For `RGB`/`RGBA` images the fields are the colour channels
(`a` is 255 when the mode has no alpha band); for `L`/`LA` images the
luminance is stored in `r` and `a` is the alpha band (`LA`) or 255 (`L`). -/
structure Pix where
  r : Nat
  g : Nat
  b : Nat
  a : Nat
deriving DecidableEq

/-- A decoded PIL image: mode, size, and pixel data. -/
structure Img where
  mode : Mode
  width : Nat
  height : Nat
  px : Nat → Nat → Pix

/-- PIL's per-channel blend used by `paste` with an `L`-mode mask:
`dst` and `src` blended by mask value `m` (0 = keep `dst`, 255 = take
`src`). -/
def blend (dst src m : Nat) : Nat := (src * m + dst * (255 - m)) / 255

/-- `convert("P", palette=Image.Palette.ADAPTIVE)` at contract level:
mode becomes `P`, every pixel opaque, colours preserved (the adaptive
palette approximation is the library's business). -/
def toAdaptivePalette (img : Img) : Img :=
  { img with
    mode := Mode.P
    px := fun x y => { img.px x y with a := 255 } }

/-- `_convert_for_gif` (createGIF.py lines 338-350).
For `RGBA` and `LA` sources a white `RGB` background of the same size is
created; an `RGBA` source is pasted with its own alpha band as mask
(per-pixel blend over white), while an `LA` source is pasted with NO mask
(`background.paste(image)`), which converts `LA` to `RGB` by dropping the
alpha band and covers the background entirely.  Finally the result is
quantized to an adaptive palette. -/
def _convert_for_gif (image : Img) : Img :=
  if image.mode = Mode.RGBA ∨ image.mode = Mode.LA then
    let pasted : Img :=
      if image.mode = Mode.RGBA then
        { mode := Mode.RGB, width := image.width, height := image.height
          px := fun x y =>
            let s := image.px x y
            { r := blend 255 s.r s.a, g := blend 255 s.g s.a
              b := blend 255 s.b s.a, a := 255 } }
      else
        { mode := Mode.RGB, width := image.width, height := image.height
          px := fun x y =>
            let s := image.px x y
            { r := s.r, g := s.r, b := s.r, a := 255 } }
    toAdaptivePalette pasted
  else
    toAdaptivePalette image

/-- `convert("RGBA")`: promote any mode to RGBA, expanding luminance
modes channel-wise. -/
def convertToRGBA (img : Img) : Img :=
  { img with
    mode := Mode.RGBA
    px := fun x y =>
      let s := img.px x y
      match img.mode with
      | Mode.L => { r := s.r, g := s.r, b := s.r, a := 255 }
      | Mode.LA => { r := s.r, g := s.r, b := s.r, a := s.a }
      | Mode.RGB => { s with a := 255 }
      | _ => s }

/-- `_convert_for_webp` (createGIF.py lines 353-357): modes other than
`RGBA`/`RGB` are converted to `RGBA`; `RGBA` and `RGB` pass through
unchanged. -/
def _convert_for_webp (image : Img) : Img :=
  if ¬ (image.mode = Mode.RGBA ∨ image.mode = Mode.RGB) then
    convertToRGBA image
  else image

/-- `_ensure_rgba` (createGIF.py lines 360-364). -/
def _ensure_rgba (image : Img) : Img :=
  if image.mode ≠ Mode.RGBA then convertToRGBA image else image

/-- `image.resize(resize_to, Resampling.LANCZOS)` at contract level: the
result has exactly the requested dimensions (Lanczos-resampled contents
belong to the library). -/
def resizeLanczos (img : Img) (wh : Nat × Nat) : Img :=
  { img with width := wh.1, height := wh.2 }

/-- The per-frame body of `load_frames_safely` (createGIF.py lines
294-319): EXIF orientation correction (with the `None` fallback of lines
299-300), optional Lanczos resize, then the format-specific conversion. -/
def processFrame (exifT : Img → Option Img) (resize_to : Option (Nat × Nat))
    (target_format : String) (img : Img) : Img :=
  let oriented := (exifT img).getD img
  let resized :=
    match resize_to with
    | some wh => resizeLanczos oriented wh
    | none => oriented
  if pyLower target_format = "gif" then _convert_for_gif resized
  else if pyLower target_format = "webp" then _convert_for_webp resized
  else _ensure_rgba resized

/-- The accumulation loop of `load_frames_safely` (lines 289-326): each
path that decodes contributes a processed frame, in input order; each
path that fails to decode increments the failure count.  `decode` models
`Image.open` (`none` = the `except` branch fires for this file). -/
def loadFramesAux (decode : α → Option Img) (exifT : Img → Option Img)
    (resize_to : Option (Nat × Nat)) (target_format : String) :
    List α → List Img × Nat
  | [] => ([], 0)
  | p :: rest =>
    let r := loadFramesAux decode exifT resize_to target_format rest
    match decode p with
    | some img => (processFrame exifT resize_to target_format img :: r.1, r.2)
    | none => (r.1, r.2 + 1)

/-- `load_frames_safely` (createGIF.py lines 257-335): run the loop; if no
frame survived raise the distinct "no valid frames" `ValueError`,
otherwise return the surviving frames together with the failure count. -/
def load_frames_safely (decode : α → Option Img) (exifT : Img → Option Img)
    (paths : List α) (resize_to : Option (Nat × Nat))
    (target_format : String) : Except String (List Img × Nat) :=
  let r := loadFramesAux decode exifT resize_to target_format paths
  if r.1.isEmpty then
    Except.error "No valid frames could be loaded from the provided images"
  else Except.ok r

/-- A 1x1 `LA` frame whose only pixel is black and fully transparent. -/
def laTransparentBlack : Img :=
  { mode := Mode.LA, width := 1, height := 1
    px := fun _ _ => { r := 0, g := 0, b := 0, a := 0 } }

/-- A 1x1 `RGBA` frame whose only pixel is black and fully transparent. -/
def rgbaTransparentBlack : Img :=
  { mode := Mode.RGBA, width := 1, height := 1
    px := fun _ _ => { r := 0, g := 0, b := 0, a := 0 } }

/-- A 2x2 `RGB` frame (no transparency). -/
def rgbSample : Img :=
  { mode := Mode.RGB, width := 2, height := 2
    px := fun _ _ => { r := 10, g := 20, b := 30, a := 255 } }

/-- A 1x1 `LA` frame, half-transparent grey. -/
def laSample : Img :=
  { mode := Mode.LA, width := 1, height := 1
    px := fun _ _ => { r := 100, g := 0, b := 0, a := 128 } }

/-- A concrete decode model (paths are numbered): path 0 decodes to
`rgbSample`, every other path fails to decode. -/
def sampleDecode (n : Nat) : Option Img :=
  if n = 0 then some rgbSample else none

/-- A concrete EXIF-transpose model: the identity. -/
def sampleExif (i : Img) : Option Img := some i

/-- `groups.setdefault(size, []).append(p)` on an insertion-ordered dict
(modelled as an association list; Python dicts preserve insertion order
and `setdefault` appends a fresh key at the end). -/
def setdefaultAppend (gs : List ((Nat × Nat) × List α)) (key : Nat × Nat)
    (p : α) : List ((Nat × Nat) × List α) :=
  match gs with
  | [] => [(key, [p])]
  | (k, v) :: rest =>
    if k = key then (k, v ++ [p]) :: rest
    else (k, v) :: setdefaultAppend rest key p

/-- One iteration of the `group_by_dimensions` loop (createGIF.py lines
154-158): a path whose size cannot be read (`get_image_size` returns
`None`, modelled by the `getSize` parameter) is skipped with `continue`,
the rest are appended to the bucket of their exact (width, height). -/
def groupStep (getSize : α → Option (Nat × Nat))
    (gs : List ((Nat × Nat) × List α)) (p : α) :
    List ((Nat × Nat) × List α) :=
  match getSize p with
  | none => gs
  | some s => setdefaultAppend gs s p

/-- `group_by_dimensions` (createGIF.py lines 140-159): fold the loop body
over the discovered paths, starting from the empty dict. -/
def group_by_dimensions (getSize : α → Option (Nat × Nat))
    (paths : List α) : List ((Nat × Nat) × List α) :=
  paths.foldl (groupStep getSize) []

/-- Dict lookup `groups[s]` on the association-list model (empty list when
the key is absent). -/
def groupLookup (gs : List ((Nat × Nat) × List α)) (s : Nat × Nat) :
    List α :=
  match gs with
  | [] => []
  | (k, v) :: rest => if k = s then v else groupLookup rest s

/-- A concrete `get_image_size` model for witnesses: paths 1 and 2 decode
to a 3x4 image, path 3 fails to decode. -/
def sampleGetSize (n : Nat) : Option (Nat × Nat) :=
  if n = 1 ∨ n = 2 then some (3, 4) else none

/-- Python `sorted(l, key=key, reverse=reverse)`: a stable sort, ascending
by key; with `reverse=True` a stable descending sort (equal-key elements
keep their original relative order in both cases, which is exactly the
behaviour of a stable merge sort run with the flipped comparison). -/
def pySorted {β : Type v} [LinearOrder β] (key : α → β) (reverse : Bool)
    (l : List α) : List α :=
  if reverse then l.mergeSort (fun a b => decide (key b ≤ key a))
  else l.mergeSort (fun a b => decide (key a ≤ key b))

/-- `sort_by_ctime` (createGIF.py lines 172-177): sort by creation time;
if `st_ctime` is unavailable (raises) for some path — modelled by `ctime`
returning `none` — the whole `sorted` call raises and the fallback sorts
by lowercased file name instead. -/
def sort_by_ctime (ctime : α → Option Int) (nameLower : α → String)
    (paths : List α) (reverse : Bool) : List α :=
  if paths.all (fun p => (ctime p).isSome) then
    pySorted (fun p => (ctime p).getD 0) reverse paths
  else
    pySorted nameLower reverse paths

/-- The numbered candidate file name `f"{base_name}_{i}.{ext}"` of
`unique_output_path`. -/
def candidateName (base ext : String) (i : Nat) : String :=
  base ++ "_" ++ toString i ++ "." ++ ext

/-- The `while True` suffix-search loop of `unique_output_path`
(createGIF.py lines 202-207), with explicit fuel standing for the
unbounded iteration: starting at index `i`, return the first candidate
name the filesystem (`fs`) does not contain.  `none` means the fuel ran
out before a free name was found (on a finite filesystem enough fuel
always exists). -/
def firstFreeAux (fs : String → Bool) (base ext : String) :
    Nat → Nat → Option String
  | 0, _ => none
  | fuel + 1, i =>
    if fs (candidateName base ext i) then firstFreeAux fs base ext fuel (i + 1)
    else some (candidateName base ext i)

/-- `unique_output_path` (createGIF.py lines 180-207): return
`<base>.<ext>` when overwriting is allowed or that name does not exist,
else search `<base>_1.<ext>`, `<base>_2.<ext>`, … for the first unused
name.  `fs` models `Path.exists` inside the output directory. -/
def unique_output_path (fs : String → Bool) (base ext : String)
    (overwrite : Bool) (fuel : Nat) : Option String :=
  let out := base ++ "." ++ ext
  if overwrite || !(fs out) then some out
  else firstFreeAux fs base ext fuel 1

/-- Animation file parameters handed to PIL's `save` by `save_animation`
(loop count 0 means looping forever in both GIF and WebP). -/
structure SavedAnim where
  frames : List Img
  durationMs : Nat
  loop : Nat
  fileFormat : String
  quality : Option Nat

/-- `save_animation` (createGIF.py lines 505-540).  The per-frame duration
is Python's `max(1, int(1000 / max(1, fps)))`; the float division is
embedded as exact natural floor division, which is valid for every
accepted rate 1 ≤ fps ≤ 60: when fps divides 1000 the double quotient is
exact, and otherwise the fractional part of 1000/fps is at least 1/60,
far beyond the double rounding error of 1000 * 2⁻⁵³, so truncation gives
the same integer either way. -/
def save_animation (frames : List Img) (fps : Nat) (fmt : String)
    (quality : Nat) : Except String SavedAnim :=
  if frames.isEmpty then Except.error "No frames to save"
  else
    let duration_ms := max 1 (1000 / max 1 fps)
    if fmt = "gif" then
      Except.ok
        { frames := frames, durationMs := duration_ms, loop := 0
          fileFormat := "GIF", quality := none }
    else if fmt = "webp" then
      Except.ok
        { frames := frames, durationMs := duration_ms, loop := 0
          fileFormat := "WEBP", quality := some quality }
    else Except.error ("Unsupported format: " ++ fmt)

/-- `parse_whxhh` (createGIF.py lines 162-169): lowercase, require an
'x', split at the first 'x', parse both halves as integers after
stripping, require both positive.  An `error` result models a raised
`ValueError` (from the explicit raises or from `int()`). -/
def parse_whxhh (s : String) : Except String (Nat × Nat) :=
  let t := pyLower s
  if ¬ t.data.contains 'x' then
    Except.error "Expected format WIDTHxHEIGHT, e.g., 1080x1080"
  else
    let w_str := String.mk (t.data.takeWhile (fun c => c ≠ 'x'))
    let h_str := String.mk ((t.data.dropWhile (fun c => c ≠ 'x')).drop 1)
    match pyToInt (pyStrip w_str), pyToInt (pyStrip h_str) with
    | some w, some h =>
      if w ≤ 0 ∨ h ≤ 0 then
        Except.error "Width/height must be positive integers"
      else Except.ok (w.toNat, h.toNat)
    | _, _ => Except.error "invalid literal for int"

/-- The `--group` resolution of `main` (flor createGIF.py lines 679-695):
`"0"` selects interactive mode; a digit string is a 1-based index into
the largest-area-first listing `sizes_sorted` and is out of range exactly
when the code's `raise ValueError` fires; any other string must parse as
`WIDTHxHEIGHT` and name an existing group.  `error 2` models the
`sys.exit(2)` of the `except` handler. -/
def resolve_group (group : String) (sizes_sorted : List (Nat × Nat)) :
    Except Nat (Option (Nat × Nat)) :=
  if group = "0" then Except.ok none
  else if pyIsDigit group then
    let gi := digitsToNat group.data
    if 1 ≤ gi ∧ gi ≤ sizes_sorted.length then
      Except.ok (sizes_sorted.get? (gi - 1))
    else Except.error 2
  else
    match parse_whxhh group with
    | Except.ok wh =>
      if wh ∈ sizes_sorted then Except.ok (some wh) else Except.error 2
    | Except.error _ => Except.error 2

/-- Observable outcome of a `main` run: the process exit code and the
output file written (if any). -/
structure RunOutcome where
  exitCode : Nat
  written : Option String
deriving DecidableEq

/-- `main` from group resolution onward: a failed `--group` resolution
exits with code 2 before any file is written; otherwise the rest of the
pipeline (`proceed`, left abstract) runs with the selected group. -/
def main_group_phase (group : String) (sizes_sorted : List (Nat × Nat))
    (proceed : Option (Nat × Nat) → RunOutcome) : RunOutcome :=
  match resolve_group group sizes_sorted with
  | Except.error c => { exitCode := c, written := none }
  | Except.ok sel => proceed sel

/-- `SUPPORTED_EXTS` (createGIF.py line 59). -/
def SUPPORTED_EXTS : List String :=
  [".jpg", ".jpeg", ".png", ".bmp", ".tif", ".tiff", ".webp"]

/-- A directory entry as seen by `Path.iterdir`: a name and whether it is
a regular file. -/
structure Entry where
  name : String
  isFile : Bool
deriving DecidableEq

/-- Index of the last '.' in a character list (`str.rfind('.')` when a
dot exists). -/
def rfindDot : List Char → Option Nat
  | [] => none
  | c :: cs =>
    match rfindDot cs with
    | some j => some (j + 1)
    | none => if c = '.' then some 0 else none

/-- pathlib's `PurePath.suffix` on a file name: the substring from the
last dot, except that a leading dot (hidden file) or a trailing dot gives
the empty suffix — exactly pathlib's `0 < i < len(name) - 1` rule. -/
def suffix (name : String) : String :=
  match rfindDot name.data with
  | some i =>
    if 0 < i ∧ i < name.data.length - 1 then String.mk (name.data.drop i)
    else ""
  | none => ""

/-- `discover_images` (createGIF.py lines 90-96): keep exactly the
regular files whose lowercased extension is in the allow-list.  (Despite
the comment on line 94, no output of a previous run is excluded.) -/
def discover_images (entries : List Entry) : List Entry :=
  entries.filter
    (fun e => e.isFile && SUPPORTED_EXTS.contains (pyLower (suffix e.name)))

end CreateGIF

namespace CreateGIF

/-- C2: for a GIF target, an `RGBA` frame's transparency is flattened over
opaque white — a fully transparent pixel comes out opaque white — but for
an `LA` frame the code pastes WITHOUT the alpha mask, so a fully
transparent black pixel comes out opaque BLACK, contradicting the
documented "composite with white background" behaviour. -/
theorem convert_for_gif_la_failing :
    (_convert_for_gif rgbaTransparentBlack).px 0 0
      = { r := 255, g := 255, b := 255, a := 255 }
    ∧ (_convert_for_gif laTransparentBlack).px 0 0
      = { r := 0, g := 0, b := 0, a := 255 }
    ∧ ({ r := 0, g := 0, b := 0, a := 255 } : Pix)
      ≠ { r := 255, g := 255, b := 255, a := 255 } := by
  refine ⟨rfl, rfl, by decide⟩

/-- C3 counterexample: an `RGB` frame (no transparency) is NOT promoted to
a colour+alpha mode by `_convert_for_webp`; it passes through with mode
`RGB`, which is not `RGBA`. -/
theorem convert_for_webp_rgb_not_promoted :
    (_convert_for_webp rgbSample).mode = Mode.RGB
    ∧ Mode.RGB ≠ Mode.RGBA := by
  refine ⟨rfl, by decide⟩

/-- C3 (amended): `_convert_for_webp` leaves `RGBA` and `RGB` frames
unchanged, and converts a frame in any other (non-standard) mode to the
canonical colour+alpha representation `RGBA`.  In particular an `RGB`
frame without transparency is not promoted. -/
theorem convert_for_webp_mode_spec (img : Img) :
    ((img.mode = Mode.RGBA ∨ img.mode = Mode.RGB) → _convert_for_webp img = img)
    ∧ (img.mode ≠ Mode.RGBA → img.mode ≠ Mode.RGB →
        (_convert_for_webp img).mode = Mode.RGBA) := by
  constructor
  · intro h
    simp [_convert_for_webp, h]
  · intro h1 h2
    have : ¬ (img.mode = Mode.RGBA ∨ img.mode = Mode.RGB) := by
      intro h; cases h with
      | inl h => exact h1 h
      | inr h => exact h2 h
    simp [_convert_for_webp, this, convertToRGBA]

/-- Witness for C3's amended theorem at a concrete non-standard-mode
frame. -/
theorem convert_for_webp_mode_spec_witness :
    (_convert_for_webp laSample).mode = Mode.RGBA :=
  (convert_for_webp_mode_spec laSample).2 (by decide) (by decide)

/-- Palette quantization does not change the image dimensions. -/
theorem toAdaptivePalette_size (img : Img) :
    (toAdaptivePalette img).width = img.width
    ∧ (toAdaptivePalette img).height = img.height := by
  constructor <;> rfl

/-- The GIF-specific conversion does not change the image dimensions. -/
theorem convert_for_gif_size (img : Img) :
    (_convert_for_gif img).width = img.width
    ∧ (_convert_for_gif img).height = img.height := by
  by_cases h : img.mode = Mode.RGBA ∨ img.mode = Mode.LA
  · by_cases h2 : img.mode = Mode.RGBA
    · simp [_convert_for_gif, toAdaptivePalette, h, h2]
    · have hla : img.mode = Mode.LA := h.resolve_left h2
      simp [_convert_for_gif, toAdaptivePalette, h, h2, hla]
  · simp [_convert_for_gif, toAdaptivePalette, h]

/-- The WebP-specific conversion does not change the image dimensions. -/
theorem convert_for_webp_size (img : Img) :
    (_convert_for_webp img).width = img.width
    ∧ (_convert_for_webp img).height = img.height := by
  by_cases h : img.mode = Mode.RGBA ∨ img.mode = Mode.RGB <;>
    simp [_convert_for_webp, convertToRGBA, h]

/-- The fallback conversion does not change the image dimensions. -/
theorem ensure_rgba_size (img : Img) :
    (_ensure_rgba img).width = img.width
    ∧ (_ensure_rgba img).height = img.height := by
  by_cases h : img.mode = Mode.RGBA <;>
    simp [_ensure_rgba, convertToRGBA, h]

/-- With a resize target, the per-frame processing yields exactly the
requested dimensions, whatever the source dimensions, orientation
correction, or target format. -/
theorem processFrame_size (exifT : Img → Option Img) (fmt : String)
    (img : Img) (W H : Nat) :
    (processFrame exifT (some (W, H)) fmt img).width = W
    ∧ (processFrame exifT (some (W, H)) fmt img).height = H := by
  by_cases h1 : pyLower fmt = "gif"
  · simpa [processFrame, h1, resizeLanczos] using
      convert_for_gif_size (resizeLanczos ((exifT img).getD img) (W, H))
  · by_cases h2 : pyLower fmt = "webp"
    · simpa [processFrame, h1, h2, resizeLanczos] using
        convert_for_webp_size (resizeLanczos ((exifT img).getD img) (W, H))
    · simpa [processFrame, h1, h2, resizeLanczos] using
        ensure_rgba_size (resizeLanczos ((exifT img).getD img) (W, H))

/-- The frame-loading loop returns exactly the processed decodable frames
in input order, paired with the number of failed decodes. -/
theorem loadFramesAux_eq (decode : α → Option Img)
    (exifT : Img → Option Img) (resize_to : Option (Nat × Nat))
    (fmt : String) (paths : List α) :
    loadFramesAux decode exifT resize_to fmt paths
      = (paths.filterMap
           (fun p => (decode p).map (processFrame exifT resize_to fmt)),
         paths.countP (fun p => (decode p).isNone)) := by
  induction paths with
  | nil => rfl
  | cons p rest ih =>
    cases hd : decode p <;>
      simp [loadFramesAux, hd, ih, List.countP_cons, List.filterMap_cons]

/-- C8: `load_frames_safely` raises the distinct "no valid frames" error
precisely when every selected path fails to decode; whenever at least one
path decodes it returns, without error, the surviving processed frames in
input order together with the count of failed decodes. -/
theorem load_frames_safely_spec (decode : α → Option Img)
    (exifT : Img → Option Img) (paths : List α)
    (resize_to : Option (Nat × Nat)) (fmt : String) :
    (load_frames_safely decode exifT paths resize_to fmt
        = Except.error "No valid frames could be loaded from the provided images"
      ↔ ∀ p ∈ paths, decode p = none)
    ∧ ((∃ p ∈ paths, decode p ≠ none) →
        load_frames_safely decode exifT paths resize_to fmt
          = Except.ok
              (paths.filterMap
                 (fun p => (decode p).map (processFrame exifT resize_to fmt)),
               paths.countP (fun p => (decode p).isNone))) := by
  have haux := loadFramesAux_eq decode exifT resize_to fmt paths
  have hnil :
      paths.filterMap
            (fun p => (decode p).map (processFrame exifT resize_to fmt)) = []
        ↔ ∀ p ∈ paths, decode p = none := by
    rw [List.filterMap_eq_nil_iff]
    constructor
    · intro h p hp
      exact Option.map_eq_none'.mp (h p hp)
    · intro h p hp
      rw [h p hp]
      rfl
  constructor
  · by_cases he :
        paths.filterMap
          (fun p => (decode p).map (processFrame exifT resize_to fmt)) = []
    · exact ⟨fun _ => hnil.mp he, fun _ => by simp [load_frames_safely, haux, he]⟩
    · have hnot : ¬ ∀ p ∈ paths, decode p = none := fun hh => he (hnil.mpr hh)
      simp [load_frames_safely, haux, he, hnot]
  · rintro ⟨p, hp, hne⟩
    have he :
        ¬ paths.filterMap
            (fun p => (decode p).map (processFrame exifT resize_to fmt)) = [] :=
      fun h => hne (hnil.mp h p hp)
    simp [load_frames_safely, haux, he]

/-- Witness for C8 at a concrete input: path 0 decodes, path 1 fails. -/
theorem load_frames_safely_spec_witness :
    load_frames_safely sampleDecode sampleExif [0, 1] (some (10, 20)) "gif"
      = Except.ok
          ([0, 1].filterMap
             (fun p =>
               (sampleDecode p).map
                 (processFrame sampleExif (some (10, 20)) "gif")),
           [0, 1].countP (fun p => (sampleDecode p).isNone)) :=
  (load_frames_safely_spec sampleDecode sampleExif [0, 1] (some (10, 20))
      "gif").2
    ⟨0, by simp, by simp [sampleDecode]⟩

/-- C4: whenever a resize target (W, H) with positive dimensions is
requested and `load_frames_safely` succeeds, every surviving frame has
width exactly W and height exactly H, regardless of the source frames'
dimensions or aspect ratio, and for every target format. -/
theorem load_frames_resize_exact (decode : α → Option Img)
    (exifT : Img → Option Img) (paths : List α) (W H : Nat) (fmt : String)
    (frames : List Img) (n : Nat) (hW : 0 < W) (hH : 0 < H)
    (hld : load_frames_safely decode exifT paths (some (W, H)) fmt
        = Except.ok (frames, n)) :
    ∀ f ∈ frames, f.width = W ∧ f.height = H := by
  have haux := loadFramesAux_eq decode exifT (some (W, H)) fmt paths
  rw [load_frames_safely, haux] at hld
  by_cases he :
      paths.filterMap
        (fun p => (decode p).map (processFrame exifT (some (W, H)) fmt)) = []
  · simp [he] at hld
  · simp only [he, List.isEmpty_iff, if_neg] at hld
    rw [if_neg (by simpa [List.isEmpty_iff] using he)] at hld
    have hframes :
        frames
          = paths.filterMap
              (fun p => (decode p).map (processFrame exifT (some (W, H)) fmt)) := by
      have := congrArg (fun e => match e with
        | Except.ok (fs, _) => fs
        | Except.error _ => []) hld
      simpa using this.symm
    intro f hf
    rw [hframes, List.mem_filterMap] at hf
    obtain ⟨p, _, hmap⟩ := hf
    obtain ⟨img, _, himg⟩ := Option.map_eq_some'.mp hmap
    rw [← himg]
    exact processFrame_size exifT fmt img W H

/-- Witness for C4 at a concrete input. -/
theorem load_frames_resize_exact_witness :
    0 < 10 ∧ 0 < 20 ∧
    ∀ f ∈ (loadFramesAux sampleDecode sampleExif (some (10, 20)) "gif" [0]).1,
      f.width = 10 ∧ f.height = 20 :=
  ⟨by decide, by decide,
   load_frames_resize_exact sampleDecode sampleExif [0] 10 20 "gif"
     (loadFramesAux sampleDecode sampleExif (some (10, 20)) "gif" [0]).1
     (loadFramesAux sampleDecode sampleExif (some (10, 20)) "gif" [0]).2
     (by decide) (by decide) rfl⟩

/-- `setdefaultAppend` preserves the grouping invariant: every bucket
member has the bucket's key as its size. -/
theorem setdefaultAppend_inv (getSize : α → Option (Nat × Nat))
    (s : Nat × Nat) (p : α) (hp : getSize p = some s) :
    ∀ gs : List ((Nat × Nat) × List α),
      (∀ kv ∈ gs, ∀ q ∈ kv.2, getSize q = some kv.1) →
      ∀ kv ∈ setdefaultAppend gs s p, ∀ q ∈ kv.2, getSize q = some kv.1 := by
  intro gs
  induction gs with
  | nil =>
    intro _ kv hkv q hq
    simp [setdefaultAppend] at hkv
    subst hkv
    simp at hq
    subst hq
    exact hp
  | cons hd rest ih =>
    obtain ⟨k, v⟩ := hd
    intro hinv kv hkv q hq
    by_cases h : k = s
    · rw [setdefaultAppend, if_pos h] at hkv
      rcases List.mem_cons.mp hkv with hkv | hkv
      · subst hkv
        rcases List.mem_append.mp hq with hq | hq
        · exact hinv (k, v) (by simp) q hq
        · simp at hq
          subst hq
          rw [h]
          exact hp
      · exact hinv kv (by simp [hkv]) q hq
    · rw [setdefaultAppend, if_neg h] at hkv
      rcases List.mem_cons.mp hkv with hkv | hkv
      · subst hkv
        exact hinv (k, v) (by simp) q hq
      · exact ih (fun kv hkv => hinv kv (by simp [hkv])) kv hkv q hq

/-- The grouping fold preserves the grouping invariant. -/
theorem groupFold_inv (getSize : α → Option (Nat × Nat)) :
    ∀ (paths : List α) (gs : List ((Nat × Nat) × List α)),
      (∀ kv ∈ gs, ∀ q ∈ kv.2, getSize q = some kv.1) →
      ∀ kv ∈ paths.foldl (groupStep getSize) gs, ∀ q ∈ kv.2,
        getSize q = some kv.1 := by
  intro paths
  induction paths with
  | nil => intro gs h; simpa using h
  | cons p rest ih =>
    intro gs h
    rw [List.foldl_cons]
    cases hp : getSize p with
    | none =>
      rw [show groupStep getSize gs p = gs from by simp [groupStep, hp]]
      exact ih gs h
    | some s =>
      rw [show groupStep getSize gs p = setdefaultAppend gs s p from by
        simp [groupStep, hp]]
      exact ih _ (setdefaultAppend_inv getSize s p hp gs h)

/-- After `setdefaultAppend gs s p`, the path `p` is in the bucket of
key `s`. -/
theorem mem_groupLookup_setdefault_self (s : Nat × Nat) (p : α) :
    ∀ gs : List ((Nat × Nat) × List α),
      p ∈ groupLookup (setdefaultAppend gs s p) s := by
  intro gs
  induction gs with
  | nil => simp [setdefaultAppend, groupLookup]
  | cons hd rest ih =>
    obtain ⟨k, v⟩ := hd
    by_cases h : k = s
    · rw [setdefaultAppend, if_pos h, groupLookup, if_pos h]
      simp
    · rw [setdefaultAppend, if_neg h, groupLookup, if_neg h]
      exact ih

/-- `setdefaultAppend` never removes a path from a bucket. -/
theorem mem_groupLookup_setdefault_mono (s t : Nat × Nat) (p q : α) :
    ∀ gs : List ((Nat × Nat) × List α),
      q ∈ groupLookup gs t → q ∈ groupLookup (setdefaultAppend gs s p) t := by
  intro gs
  induction gs with
  | nil => simp [groupLookup]
  | cons hd rest ih =>
    obtain ⟨k, v⟩ := hd
    intro hq
    by_cases h : k = s
    · rw [setdefaultAppend, if_pos h]
      by_cases h2 : k = t
      · rw [groupLookup, if_pos h2] at hq
        rw [groupLookup, if_pos h2]
        exact List.mem_append_left _ hq
      · rw [groupLookup, if_neg h2] at hq
        rw [groupLookup, if_neg h2]
        exact hq
    · rw [setdefaultAppend, if_neg h]
      by_cases h2 : k = t
      · rw [groupLookup, if_pos h2] at hq
        rw [groupLookup, if_pos h2]
        exact hq
      · rw [groupLookup, if_neg h2] at hq
        rw [groupLookup, if_neg h2]
        exact ih hq

/-- The grouping fold never removes a path from a bucket. -/
theorem mem_groupLookup_fold_mono (getSize : α → Option (Nat × Nat))
    (t : Nat × Nat) (q : α) :
    ∀ (paths : List α) (gs : List ((Nat × Nat) × List α)),
      q ∈ groupLookup gs t →
      q ∈ groupLookup (paths.foldl (groupStep getSize) gs) t := by
  intro paths
  induction paths with
  | nil => intro gs h; simpa using h
  | cons p rest ih =>
    intro gs h
    rw [List.foldl_cons]
    cases hp : getSize p with
    | none =>
      rw [show groupStep getSize gs p = gs from by simp [groupStep, hp]]
      exact ih gs h
    | some s =>
      rw [show groupStep getSize gs p = setdefaultAppend gs s p from by
        simp [groupStep, hp]]
      exact ih _ (mem_groupLookup_setdefault_mono s t p q gs h)

/-- Every decodable path ends up in the bucket of its size. -/
theorem groupFold_coverage (getSize : α → Option (Nat × Nat)) :
    ∀ (paths : List α) (gs : List ((Nat × Nat) × List α)) (p : α)
      (s : Nat × Nat), getSize p = some s → p ∈ paths →
      p ∈ groupLookup (paths.foldl (groupStep getSize) gs) s := by
  intro paths
  induction paths with
  | nil => intro gs p s _ hmem; simp at hmem
  | cons hd rest ih =>
    intro gs p s hp hmem
    rw [List.foldl_cons]
    rcases List.mem_cons.mp hmem with heq | hmem'
    · subst heq
      rw [show groupStep getSize gs p = setdefaultAppend gs s p from by
        simp [groupStep, hp]]
      exact mem_groupLookup_fold_mono getSize s p rest _
        (mem_groupLookup_setdefault_self s p _)
    · exact ih _ p s hp hmem'

/-- C1: `group_by_dimensions` partitions exactly the decodable files —
every path in the bucket keyed (w, h) has size exactly (w, h) (so all
members of one bucket share identical dimensions), every decodable path
appears in the bucket of its size, and an undecodable path appears in no
bucket. -/
theorem group_by_dimensions_partition (getSize : α → Option (Nat × Nat))
    (paths : List α) :
    (∀ kv ∈ group_by_dimensions getSize paths, ∀ p ∈ kv.2,
       getSize p = some kv.1)
    ∧ (∀ p ∈ paths, ∀ s, getSize p = some s →
         p ∈ groupLookup (group_by_dimensions getSize paths) s)
    ∧ (∀ p, getSize p = none →
         ∀ kv ∈ group_by_dimensions getSize paths, p ∉ kv.2) := by
  refine ⟨groupFold_inv getSize paths [] (by simp), ?_, ?_⟩
  · intro p hp s hs
    exact groupFold_coverage getSize paths [] p s hs hp
  · intro p hp kv hkv hq
    have := groupFold_inv getSize paths [] (by simp) kv hkv p hq
    rw [hp] at this
    exact Option.noConfusion this

/-- Witness for C1 at a concrete input: paths 1 and 2 decode to 3x4,
path 3 fails to decode. -/
theorem group_by_dimensions_partition_witness :
    1 ∈ groupLookup (group_by_dimensions sampleGetSize [1, 2, 3]) (3, 4) :=
  (group_by_dimensions_partition sampleGetSize [1, 2, 3]).2.1 1 (by simp)
    (3, 4) (by decide)

/-- On a list with pairwise-distinct keys, the stable descending merge
sort is exactly the reversal of the stable ascending merge sort. -/
theorem mergeSort_desc_eq_reverse {β : Type v} [LinearOrder β]
    (key : α → β) (l : List α)
    (hd : l.Pairwise (fun a b => key a ≠ key b)) :
    l.mergeSort (fun a b => decide (key b ≤ key a))
      = (l.mergeSort (fun a b => decide (key a ≤ key b))).reverse := by
  have sA := @List.sorted_mergeSort α
    (fun a b => decide (key a ≤ key b))
    (fun a b c hab hbc => by
      simp only [decide_eq_true_eq] at *
      exact le_trans hab hbc)
    (fun a b => by
      rcases le_total (key a) (key b) with h | h <;> simp [h]) l
  have sD := @List.sorted_mergeSort α
    (fun a b => decide (key b ≤ key a))
    (fun a b c hab hbc => by
      simp only [decide_eq_true_eq] at *
      exact le_trans hbc hab)
    (fun a b => by
      rcases le_total (key a) (key b) with h | h <;> simp [h]) l
  have sA' : (l.mergeSort (fun a b => decide (key a ≤ key b))).Pairwise
      (fun a b => key a ≤ key b) :=
    sA.imp (fun h => of_decide_eq_true h)
  have sD' : (l.mergeSort (fun a b => decide (key b ≤ key a))).Pairwise
      (fun a b => key b ≤ key a) :=
    sD.imp (fun h => of_decide_eq_true h)
  have hdA : (l.mergeSort (fun a b => decide (key a ≤ key b))).Pairwise
      (fun a b => key a ≠ key b) :=
    ((List.mergeSort_perm l _).pairwise_iff (fun h => Ne.symm h)).mpr hd
  have hdD : (l.mergeSort (fun a b => decide (key b ≤ key a))).Pairwise
      (fun a b => key a ≠ key b) :=
    ((List.mergeSort_perm l _).pairwise_iff (fun h => Ne.symm h)).mpr hd
  have sDlt : (l.mergeSort (fun a b => decide (key b ≤ key a))).Pairwise
      (fun a b => key b < key a) :=
    (sD'.and hdD).imp (fun h => lt_of_le_of_ne h.1 (Ne.symm h.2))
  have sRlt : ((l.mergeSort (fun a b => decide (key a ≤ key b))).reverse).Pairwise
      (fun a b => key b < key a) := by
    rw [List.pairwise_reverse]
    exact (sA'.and hdA).imp (fun h => lt_of_le_of_ne h.1 h.2)
  have hperm : (l.mergeSort (fun a b => decide (key b ≤ key a))).Perm
      ((l.mergeSort (fun a b => decide (key a ≤ key b))).reverse) :=
    (List.mergeSort_perm l _).trans
      ((List.mergeSort_perm l _).symm.trans (List.reverse_perm _).symm)
  haveI : IsAntisymm α (fun a b => key b < key a) :=
    ⟨fun a b h1 h2 => absurd h2 (lt_asymm h1).elim⟩
  exact List.eq_of_perm_of_sorted hperm sDlt sRlt

/-- With pairwise-distinct keys, Python's `sorted(..., reverse=True)` is
the exact reversal of `sorted(..., reverse=False)`. -/
theorem pySorted_reverse {β : Type v} [LinearOrder β] (key : α → β)
    (l : List α) (hd : l.Pairwise (fun a b => key a ≠ key b)) :
    pySorted key true l = (pySorted key false l).reverse := by
  simp only [pySorted, if_true, if_false, Bool.false_eq_true]
  exact mergeSort_desc_eq_reverse key l hd

/-- Python's ascending `sorted` really sorts by the key. -/
theorem pySorted_sorted {β : Type v} [LinearOrder β] (key : α → β)
    (l : List α) :
    (pySorted key false l).Pairwise (fun a b => key a ≤ key b) := by
  simp only [pySorted, if_false, Bool.false_eq_true]
  exact (@List.sorted_mergeSort α
    (fun a b => decide (key a ≤ key b))
    (fun a b c hab hbc => by
      simp only [decide_eq_true_eq] at *
      exact le_trans hab hbc)
    (fun a b => by
      rcases le_total (key a) (key b) with h | h <;> simp [h]) l).imp
    (fun h => of_decide_eq_true h)

/-- C5: on any list of at least two paths, sorting by creation time with
`reverse=False` and then with `reverse=True` yields exactly reversed
orders whenever the creation times are pairwise distinct; when creation
time is unavailable, the deterministic fallback is case-insensitive
filename order, and the reversal flag has the same exact-reversal
behaviour on pairwise-distinct names. -/
theorem sort_by_ctime_reverse_spec (ctime : α → Option Int)
    (nameLower : α → String) (paths : List α) (hlen : 2 ≤ paths.length) :
    ((paths.all fun p => (ctime p).isSome) = true →
      paths.Pairwise (fun a b => ctime a ≠ ctime b) →
      sort_by_ctime ctime nameLower paths true
        = (sort_by_ctime ctime nameLower paths false).reverse)
    ∧ ((paths.all fun p => (ctime p).isSome) = false →
      paths.Pairwise (fun a b => nameLower a ≠ nameLower b) →
      (sort_by_ctime ctime nameLower paths true
         = (sort_by_ctime ctime nameLower paths false).reverse
       ∧ (sort_by_ctime ctime nameLower paths false).Pairwise
           (fun a b => nameLower a ≤ nameLower b))) := by
  constructor
  · intro hall hdist
    have hsome : ∀ p ∈ paths, (ctime p).isSome = true :=
      List.all_eq_true.mp hall
    simp only [sort_by_ctime, hall, if_true]
    apply pySorted_reverse
    refine hdist.imp_of_mem ?_
    intro a b ha hb hne
    obtain ⟨x, hx⟩ := Option.isSome_iff_exists.mp (hsome a ha)
    obtain ⟨y, hy⟩ := Option.isSome_iff_exists.mp (hsome b hb)
    intro hgd
    apply hne
    rw [hx, hy] at hgd ⊢
    simpa using hgd
  · intro hall hdist
    simp only [sort_by_ctime, hall, Bool.false_eq_true, if_false]
    exact ⟨pySorted_reverse nameLower paths hdist,
           pySorted_sorted nameLower paths⟩

/-- Witness for C5 at a concrete input: two paths with distinct creation
times, and two paths with an unavailable creation time but distinct
names. -/
theorem sort_by_ctime_reverse_spec_witness :
    (sort_by_ctime (fun n => some (n : Int)) (fun _ => "") [10, 20] true
       = (sort_by_ctime (fun n => some (n : Int)) (fun _ => "") [10, 20]
           false).reverse)
    ∧ (sort_by_ctime (fun _ => (none : Option Int)) (fun n => toString n)
         [10, 20] true
       = (sort_by_ctime (fun _ => (none : Option Int)) (fun n => toString n)
           [10, 20] false).reverse) :=
  ⟨(sort_by_ctime_reverse_spec (fun n => some (n : Int)) (fun _ => "")
      [10, 20] (by decide)).1 (by decide) (by decide),
   ((sort_by_ctime_reverse_spec (fun _ => (none : Option Int))
      (fun n => toString n) [10, 20] (by decide)).2 (by decide)
      (by decide)).1⟩

/-- Whatever the suffix-search loop returns does not exist on the
filesystem and is the first free candidate at or after the start index. -/
theorem firstFreeAux_spec (fs : String → Bool) (base ext : String) :
    ∀ (fuel i : Nat) (p : String),
      firstFreeAux fs base ext fuel i = some p →
      fs p = false
      ∧ ∃ j, i ≤ j ∧ p = candidateName base ext j
          ∧ ∀ m, i ≤ m → m < j → fs (candidateName base ext m) = true := by
  intro fuel
  induction fuel with
  | zero => intro i p h; simp [firstFreeAux] at h
  | succ fuel ih =>
    intro i p h
    simp only [firstFreeAux] at h
    by_cases hc : fs (candidateName base ext i) = true
    · rw [if_pos hc] at h
      obtain ⟨hfp, j, hij, hpj, hall⟩ := ih (i + 1) p h
      refine ⟨hfp, j, by omega, hpj, ?_⟩
      intro m him hmj
      rcases Nat.eq_or_lt_of_le him with heq | hlt
      · rw [← heq]; exact hc
      · exact hall m hlt hmj
    · rw [if_neg hc] at h
      have hp : p = candidateName base ext i := by
        simpa using h.symm
      subst hp
      refine ⟨by simpa using hc, i, Nat.le_refl i, rfl, ?_⟩
      intro m him hmi
      omega
/-- If some candidate within the fuel is free, the suffix-search loop
finds one. -/
theorem firstFreeAux_total (fs : String → Bool) (base ext : String) :
    ∀ (fuel i : Nat),
      (∃ j, i ≤ j ∧ j < i + fuel ∧ fs (candidateName base ext j) = false) →
      (firstFreeAux fs base ext fuel i).isSome := by
  intro fuel
  induction fuel with
  | zero =>
    rintro i ⟨j, hij, hlt, _⟩
    exact absurd hlt (by omega)
  | succ fuel ih =>
    rintro i ⟨j, hij, hlt, hfree⟩
    simp only [firstFreeAux]
    by_cases hc : fs (candidateName base ext i) = true
    · rw [if_pos hc]
      apply ih
      have hne : j ≠ i := by
        intro h
        rw [h] at hfree
        rw [hfree] at hc
        exact Bool.noConfusion hc
      exact ⟨j, by omega, by omega, hfree⟩
    · rw [if_neg hc]
      rfl

/-- C6: without overwrite, `unique_output_path` never returns an existing
name — any returned name is free, and is either `<base>.<ext>` (when that
name is unused) or the first unused `<base>_i.<ext>` in the numeric-suffix
sequence; it returns a name whenever one is available within the fuel; and
called twice in a row for the same base name it yields `<base>.<ext>`
first and `<base>_1.<ext>` second (the call made after `<base>.<ext>`
came into existence). -/
theorem unique_output_path_spec (fs : String → Bool) (base ext : String)
    (fuel : Nat) :
    (∀ p, unique_output_path fs base ext false fuel = some p →
       fs p = false
       ∧ (p = base ++ "." ++ ext
          ∨ (fs (base ++ "." ++ ext) = true
             ∧ ∃ i, 1 ≤ i ∧ p = candidateName base ext i
                 ∧ ∀ j, 1 ≤ j → j < i →
                     fs (candidateName base ext j) = true)))
    ∧ (fs (base ++ "." ++ ext) = true →
        (∃ i, 1 ≤ i ∧ i < 1 + fuel ∧ fs (candidateName base ext i) = false) →
        (unique_output_path fs base ext false fuel).isSome)
    ∧ (fs (base ++ "." ++ ext) = false →
        unique_output_path fs base ext false fuel
          = some (base ++ "." ++ ext))
    ∧ (fs (base ++ "." ++ ext) = true →
        fs (candidateName base ext 1) = false → 1 ≤ fuel →
        unique_output_path fs base ext false fuel
          = some (candidateName base ext 1)) := by
  refine ⟨?_, ?_, ?_, ?_⟩
  · intro p h
    by_cases hout : fs (base ++ "." ++ ext) = true
    · have h' : firstFreeAux fs base ext fuel 1 = some p := by
        simpa [unique_output_path, hout] using h
      obtain ⟨hfp, j, h1j, hpj, hall⟩ :=
        firstFreeAux_spec fs base ext fuel 1 p h'
      exact ⟨hfp, Or.inr ⟨hout, j, h1j, hpj, hall⟩⟩
    · have hp : p = base ++ "." ++ ext := by
        have := h
        simp [unique_output_path, Bool.not_eq_true _ |>.mp hout] at this
        exact this.symm
      subst hp
      exact ⟨Bool.not_eq_true _ |>.mp hout, Or.inl rfl⟩
  · intro hout hex
    simpa [unique_output_path, hout] using
      firstFreeAux_total fs base ext fuel 1 hex
  · intro hfree
    simp [unique_output_path, hfree]
  · intro hout h1 hfuel
    simp only [unique_output_path, hout]
    cases fuel with
    | zero => omega
    | succ f => simp [firstFreeAux, h1]

/-- Witness for C6: after a first run created `flor.gif`, the second call
returns `flor_1.gif`. -/
theorem unique_output_path_spec_witness :
    unique_output_path (fun s => s == "flor.gif") "flor" "gif" false 3
      = some (candidateName "flor" "gif" 1) :=
  (unique_output_path_spec (fun s => s == "flor.gif") "flor" "gif" 3).2.2.2
    (by decide) (by decide) (by decide)

/-- C7: for every accepted frame rate 1 ≤ fps ≤ 60 and non-empty frame
list, `save_animation` succeeds for both formats and writes the animation
with per-frame duration exactly `max 1 (1000 / fps)` milliseconds — hence
at least 1 ms, never rounded to zero — and with loop count 0 (infinite
looping); at fps = 8 the duration is exactly 125 ms. -/
theorem save_animation_duration_spec (frames : List Img) (fps : Nat)
    (fmt : String) (quality : Nat) (h1 : 1 ≤ fps) (h60 : fps ≤ 60)
    (hne : frames ≠ []) (hfmt : fmt = "gif" ∨ fmt = "webp") :
    ∃ anim, save_animation frames fps fmt quality = Except.ok anim
      ∧ anim.durationMs = max 1 (1000 / fps)
      ∧ 1 ≤ anim.durationMs
      ∧ anim.loop = 0
      ∧ (fps = 8 → anim.durationMs = 125) := by
  have hmax : max 1 fps = fps := Nat.max_eq_right h1
  have hemp : frames.isEmpty = false := by
    simpa [List.isEmpty_iff] using hne
  rcases hfmt with hf | hf <;> subst hf
  · refine ⟨{ frames := frames, durationMs := max 1 (1000 / max 1 fps)
              loop := 0, fileFormat := "GIF", quality := none },
      by simp [save_animation, hemp], ?_, ?_, rfl, ?_⟩
    · simp [hmax]
    · exact Nat.le_max_left 1 _
    · intro h8; subst h8; simp
  · refine ⟨{ frames := frames, durationMs := max 1 (1000 / max 1 fps)
              loop := 0, fileFormat := "WEBP", quality := some quality },
      by simp [save_animation, hemp], ?_, ?_, rfl, ?_⟩
    · simp [hmax]
    · exact Nat.le_max_left 1 _
    · intro h8; subst h8; simp

/-- Witness for C7 at fps = 8, GIF format, one frame. -/
theorem save_animation_duration_spec_witness :
    ∃ anim, save_animation [rgbSample] 8 "gif" 80 = Except.ok anim
      ∧ anim.durationMs = max 1 (1000 / 8)
      ∧ 1 ≤ anim.durationMs
      ∧ anim.loop = 0
      ∧ (8 = 8 → anim.durationMs = 125) :=
  save_animation_duration_spec [rgbSample] 8 "gif" 80 (by decide) (by decide)
    (by simp) (Or.inl rfl)

/-- C9: in group mode, an out-of-range 1-based index and a well-formed
dimension key matching no group are both usage errors — the run exits
with code 2 and writes no file (and does not crash: the outcome is total),
for every possible continuation of the pipeline. -/
theorem main_group_phase_usage_error (group : String)
    (sizes_sorted : List (Nat × Nat))
    (proceed : Option (Nat × Nat) → RunOutcome) :
    (group ≠ "0" → pyIsDigit group = true →
      ¬ (1 ≤ digitsToNat group.data
          ∧ digitsToNat group.data ≤ sizes_sorted.length) →
      main_group_phase group sizes_sorted proceed
        = { exitCode := 2, written := none })
    ∧ (∀ wh, group ≠ "0" → pyIsDigit group = false →
        parse_whxhh group = Except.ok wh → wh ∉ sizes_sorted →
        main_group_phase group sizes_sorted proceed
          = { exitCode := 2, written := none }) := by
  constructor
  · intro h0 hdig hrange
    simp [main_group_phase, resolve_group, h0, hdig, hrange]
  · intro wh h0 hdig hp hmem
    simp [main_group_phase, resolve_group, h0, hdig, hp, hmem]

/-- Witness for C9: `--group 99` against two groups exits 2 with no file
written; so does `--group 640x480` when no such group exists. -/
theorem main_group_phase_usage_error_witness :
    main_group_phase "99" [(100, 100), (50, 50)]
        (fun _ => { exitCode := 0, written := some "out.gif" })
      = { exitCode := 2, written := none }
    ∧ main_group_phase "640x480" [(100, 100), (50, 50)]
        (fun _ => { exitCode := 0, written := some "out.gif" })
      = { exitCode := 2, written := none } :=
  ⟨(main_group_phase_usage_error "99" [(100, 100), (50, 50)]
      (fun _ => { exitCode := 0, written := some "out.gif" })).1
      (by decide) (by decide) (by decide),
   (main_group_phase_usage_error "640x480" [(100, 100), (50, 50)]
      (fun _ => { exitCode := 0, written := some "out.gif" })).2
      (640, 480) (by decide) (by decide) rfl (by decide)⟩

/-- `rfindDot` finds the last dot: appending in front of a list whose
last dot is at `j` shifts it by the prefix length. -/
theorem rfindDot_append (l m : List Char) (j : Nat)
    (hm : rfindDot m = some j) :
    rfindDot (l ++ m) = some (l.length + j) := by
  induction l with
  | nil => simpa using hm
  | cons c cs ih =>
    rw [List.cons_append, rfindDot, ih]
    simp [Nat.succ_add]

/-- Appending an extension of the form `.xyz` to a non-empty base name
yields exactly that extension as the pathlib suffix. -/
theorem suffix_append (base : String) (hb : base ≠ "") (tail : String)
    (hdot : rfindDot tail.data = some 0) (hlen : 2 ≤ tail.data.length) :
    suffix (base ++ tail) = tail := by
  have hbd : base.data ≠ [] := by
    intro h
    apply hb
    cases base with
    | mk d =>
      simp only at h
      rw [h]
  have hdata : (base ++ tail).data = base.data ++ tail.data :=
    String.data_append base tail
  have hr : rfindDot ((base ++ tail).data) = some (base.data.length + 0) := by
    rw [hdata]
    exact rfindDot_append base.data tail.data 0 hdot
  have hpos : 0 < base.data.length := List.length_pos.mpr hbd
  rw [suffix, hr]
  show (if 0 < base.data.length + 0
          ∧ base.data.length + 0 < (base ++ tail).data.length - 1 then
        String.mk ((base ++ tail).data.drop (base.data.length + 0))
      else "") = tail
  rw [if_pos (by rw [hdata, List.length_append]; omega)]
  rw [hdata, Nat.add_zero, List.drop_left]

/-- C10: discovery keeps exactly the regular files whose lowercased
pathlib suffix is in the fixed allow-list; consequently, for every
non-empty base name, a `.webp` animation written by a previous run
carries a suffix in the allow-list (it is rediscovered as input when
present as a regular file), while a `.gif` output's suffix is not in the
allow-list (it is never discovered). -/
theorem discover_images_spec (entries : List Entry) (e : Entry)
    (base : String) (hb : base ≠ "") :
    (e ∈ discover_images entries
      ↔ e ∈ entries ∧ e.isFile = true
        ∧ SUPPORTED_EXTS.contains (pyLower (suffix e.name)) = true)
    ∧ SUPPORTED_EXTS.contains (pyLower (suffix (base ++ ".webp"))) = true
    ∧ SUPPORTED_EXTS.contains (pyLower (suffix (base ++ ".gif"))) = false := by
  refine ⟨?_, ?_, ?_⟩
  · simp [discover_images, List.mem_filter, Bool.and_eq_true, and_assoc]
  · rw [suffix_append base hb ".webp" (by decide) (by decide)]
    decide
  · rw [suffix_append base hb ".gif" (by decide) (by decide)]
    decide

/-- Witness for C10: in a folder holding a previous `.webp` output and a
previous `.gif` output, discovery picks up the `.webp` file and not the
`.gif` file. -/
theorem discover_images_spec_witness :
    ({ name := "flor.webp", isFile := true } : Entry)
      ∈ discover_images
          [{ name := "flor.webp", isFile := true },
           { name := "flor.gif", isFile := true }] :=
  (discover_images_spec
      [{ name := "flor.webp", isFile := true },
       { name := "flor.gif", isFile := true }]
      { name := "flor.webp", isFile := true } "flor" (by decide)).1.mpr
    ⟨by simp, rfl, by decide⟩

end CreateGIF
